import Mathlib

/-!
A shallow embedding of the `unlimitedworlds` grid-world tick engine
(`src/unlimitedworlds/{grid,actions,agent,entity,observation,world}.py`)
together with theorems checking the specification's claims.

Modelling conventions:
- Python `tuple[int, int]` positions become `Int × Int`.
- Python dicts become association lists; `dictGet` models `dict.get`
  (later insertions overwrite earlier ones, so the lookup is last-wins).
- Python object identity of `World` (needed for `agent.world is not self`
  and `agent.world is not None`) is modelled by a numeric field `wid`;
  `Agent.world : Option Nat` stores the id of the attached world.
- `random.Random` state is abstracted to a `Nat`; `random.Random()` with no
  seed draws OS entropy, modelled by an explicit `entropy` argument.
- Exceptions (`ValueError`) become `Except String`.
- System hooks receive the mutable-during-tick state (the agent roster and
  the tick context) and return its updated form; this models Python hooks
  that mutate agents and the context in place.
-/

namespace UW

/-- Grid position, `Pos = tuple[int, int]` in `grid.py`. -/
abbrev Pos : Type := Int × Int

/-- Cardinal directions, `actions.py` `Dir`; values are (dx, dy) offsets. -/
inductive Dir where
  | N
  | E
  | S
  | W
deriving DecidableEq, Repr

/-- `Dir.dx` property. -/
def Dir.dx : Dir → Int
  | .N => 0
  | .E => 1
  | .S => 0
  | .W => -1

/-- `Dir.dy` property. -/
def Dir.dy : Dir → Int
  | .N => -1
  | .E => 0
  | .S => 1
  | .W => 0

/-- An action request, `actions.py` `Action` (name plus typed parameters).
The source stores `name : str` and a parameter dict; the engine dispatches on
the name and reads `data["dir"]` for moves.  The `send` constructor carries
the parameters (`dst` uid, payload) that the test suite passes to `uw.send`;
any other name is carried by `other`. -/
inductive Action where
  | move (dir : Dir)
  | wait
  | send (dst : Nat) (payload : List Char)
  | other (name : String)
deriving DecidableEq, Repr

/-- `Action.name`, the string the engine dispatches on. -/
def Action.name : Action → String
  | .move _ => "move"
  | .wait => "wait"
  | .send _ _ => "send"
  | .other n => n

/-- A tile, `grid.py` `Tile`: the engine contract is the `walkable` flag. -/
structure Tile where
  walkable : Bool
deriving DecidableEq, Repr

/-- `grid.py` `Floor`. -/
def Floor : Tile := ⟨true⟩

/-- `grid.py` `Wall`. -/
def Wall : Tile := ⟨false⟩

/-- `grid.py` `Grid`: width, height and a dense row-major tile array. -/
structure Grid where
  width : Nat
  height : Nat
  tiles : List Tile
deriving DecidableEq, Repr

/-- `Grid.__init__(width, height, default)`: `width*height` copies of the
default tile (`Floor` when omitted). -/
def Grid.new (width height : Nat) (default : Tile) : Grid :=
  ⟨width, height, List.replicate (width * height) default⟩

/-- `Grid.in_bounds`. -/
def Grid.in_bounds (g : Grid) (p : Pos) : Bool :=
  0 ≤ p.1 && p.1 < (g.width : Int) && 0 ≤ p.2 && p.2 < (g.height : Int)

/-- `Grid._idx`: row-major index `y*width + x` (callers guarantee bounds). -/
def Grid.idx (g : Grid) (p : Pos) : Nat :=
  (p.2 * (g.width : Int) + p.1).toNat

/-- `Grid.set(pos, tile)`.  The source raises IndexError out of bounds; the
engine and tests only call it in bounds, where it overwrites one cell. -/
def Grid.setTile (g : Grid) (p : Pos) (t : Tile) : Grid :=
  if g.in_bounds p then ⟨g.width, g.height, g.tiles.set (g.idx p) t⟩ else g

/-- `Grid.is_walkable(pos, agent=None)`: false out of bounds, else the
tile's walkable flag; the `agent` parameter is unused in the source. -/
def Grid.is_walkable (g : Grid) (p : Pos) : Bool :=
  if g.in_bounds p then ((g.tiles.get? (g.idx p)).map Tile.walkable).getD false
  else false

/-- Sensor shapes, `observation.py` `SensorShape`. -/
inductive SensorShape where
  | MANHATTAN
  | SQUARE
deriving DecidableEq, Repr

/-- `observation.py` `SensorSpec` (defaults: radius 2, MANHATTAN). -/
structure SensorSpec where
  radius : Nat
  shape : SensorShape
deriving DecidableEq, Repr

/-- A delivered inter-agent message {source uid, payload}, as used by the
test suite (`m.src_uid`, `m.payload`); see the spec-modelled messaging
definitions below. -/
structure Message where
  src_uid : Nat
  payload : List Char
deriving DecidableEq, Repr

/-- `agent.py` `Agent` (an `entity.py` `Entity` with a queued-action slot).
`uid` is assigned by the caller (the source uses a process-wide increasing
counter, so uids are unique); `world` holds the id of the attached world;
`sensor` is the sensor spec that `World.observe` reads from the agent
(`tests/test_observation.py` passes it to the constructor); `mailbox` is
used only by the spec-modelled messaging layer. -/
structure Agent where
  uid : Nat
  world : Option Nat
  pos : Option Pos
  queued : Option Action
  sensor : SensorSpec
  mailbox : List Message
deriving DecidableEq, Repr

/-- `Agent.__init__` with a caller-chosen uid: unattached, unplaced, empty
action slot, empty mailbox. -/
def Agent.new (uid : Nat) (sensor : SensorSpec) : Agent :=
  ⟨uid, none, none, none, sensor, []⟩

/-- `Agent.act(action)`: overwrite the single pending-action slot. -/
def Agent.act (a : Agent) (x : Action) : Agent :=
  { a with queued := some x }

/-- The roster-side effect of `Agent._take_queued_action`: the slot is
cleared (its previous content is read out separately). -/
def Agent.clearQueued (a : Agent) : Agent :=
  { a with queued := none }

/-- Structured event payloads.  The source stores a `dict[str, Any]`; the
engine only ever builds `{}`, `{"agent": uid}`, `{"agent": uid, "to": pos}`
and `{"agent": uid, "name": str}`, which are the four constructors here. -/
inductive EvData where
  | unit
  | agent (uid : Nat)
  | agentTo (uid : Nat) (tgt : Pos)
  | agentName (uid : Nat) (name : String)
deriving DecidableEq, Repr

/-- `world.py` `Event`: {name, structured data}. -/
structure Event where
  name : String
  data : EvData
deriving DecidableEq, Repr

/-- `world.py` `WorldState`: {tick, uid → position} snapshot.  The dict is
an association list in roster order (its build order in the source). -/
structure WorldState where
  tick : Nat
  positions : List (Nat × Pos)
deriving DecidableEq, Repr

/-- `world.py` `TickContext`: per-tick scratch state handed to hooks. -/
structure TickContext where
  tick : Nat
  actions : List (Nat × Action)
  events : List Event
  rng : Nat
deriving DecidableEq, Repr

/-- A hook: receives the mutable-during-tick state (roster, context) and
returns its updated form. -/
abbrev HookFn : Type := List Agent → TickContext → List Agent × TickContext

/-- `world.py` `System`: three hooks (no-op defaults in the source). -/
structure Sys where
  pre_tick : HookFn
  resolve : HookFn
  post_tick : HookFn

/-- A no-op hook (the `System` base-class default). -/
def noopHook : HookFn := fun ag c => (ag, c)

/-- `world.py` `CollisionPolicy` (single variant). -/
inductive CollisionPolicy where
  | BLOCK
deriving DecidableEq, Repr

/-- `world.py` `World`: grid, collision policy, registered systems, RNG
state, tick counter and agent roster.  `wid` models Python object identity
(used by attachment checks); `seed` and `rng` model `self.seed` and
`self.rng`. -/
structure World where
  grid : Grid
  collision_policy : CollisionPolicy
  systems : List Sys
  wid : Nat
  seed : Option Nat
  rng : Nat
  tick_ctr : Nat
  agents : List Agent

/-- `World.__init__(grid, collision_policy=BLOCK)`: empty systems, no seed,
fresh unseeded RNG (`entropy` models the OS entropy it draws), tick 0,
empty roster.  `wid` is the model's stand-in for the object's identity. -/
def World.init (grid : Grid) (policy : CollisionPolicy) (wid entropy : Nat) : World :=
  ⟨grid, policy, [], wid, none, entropy, 0, []⟩

/-- `World.add_system(system)`. -/
def World.add_system (w : World) (s : Sys) : World :=
  { w with systems := w.systems ++ [s] }

/-- `World.tick_count` property. -/
def World.tick_count (w : World) : Nat := w.tick_ctr

/-- `World.reset(seed=None)`: store the seed, reseed the RNG (from `seed`
when given, else from OS entropy), zero the tick counter, clear the
roster.  Registered systems are untouched; previously spawned agents are
separate values and are untouched. -/
def World.reset (w : World) (seed : Option Nat) (entropy : Nat) : World :=
  { w with
      seed := seed
      rng := match seed with | some s => s | none => entropy
      tick_ctr := 0
      agents := [] }

/-- `World.spawn(agent, at)`: reject an already-attached agent, reject a
non-walkable target, otherwise attach, place and append to the roster.
The updated agent value is returned alongside the world (the source
mutates the shared object). -/
def World.spawn (w : World) (a : Agent) (at_ : Pos) : Except String (World × Agent) :=
  if a.world ≠ none then
    .error "Agent is already spawned in a world."
  else if ¬ w.grid.is_walkable at_ then
    .error "Cannot spawn at non-walkable tile."
  else
    let a' := { a with world := some w.wid, pos := some at_ }
    .ok ({ w with agents := w.agents ++ [a'] }, a')

/-- The caller-visible result of a `spawn` call: a raised `ValueError`
propagates and leaves both the world and the agent exactly as they were. -/
def World.spawnRun (w : World) (a : Agent) (at_ : Pos) : World × Agent :=
  match w.spawn a at_ with
  | .ok wa => wa
  | .error _ => (w, a)

/-- `World.snapshot()`: {tick, uid → pos for agents that have a position},
built in roster order. -/
def World.snapshot (w : World) : WorldState :=
  ⟨w.tick_ctr, w.agents.filterMap (fun a => a.pos.map (fun p => (a.uid, p)))⟩

/-- `world.py` `Tick`: the return value of `World.tick()`. -/
structure TickRes where
  state : WorldState
  events : List Event
deriving DecidableEq, Repr

/-- `dict.get` over a dict built by inserting the entries of `m` in order:
a later entry with the same key overwrites an earlier one, so lookup is
last-wins. -/
def dictGet {κ α : Type} [DecidableEq κ] : List (κ × α) → κ → Option α
  | [], _ => none
  | e :: rest, k =>
    match dictGet rest k with
    | some v => some v
    | none => if e.1 = k then some e.2 else none

/-- The agent ordering used by `sorted(self._agents, key=lambda a: a.uid)`. -/
def uidLe (a b : Agent) : Prop := a.uid ≤ b.uid

instance : DecidableRel uidLe := fun a b => Nat.decLe a.uid b.uid

instance : IsTotal Agent uidLe := ⟨fun a b => Nat.le_total a.uid b.uid⟩

instance : IsTrans Agent uidLe := ⟨fun _ _ _ h h' => Nat.le_trans h h'⟩

/-- `sorted(agents, key=lambda a: a.uid)`. -/
def sortByUid (l : List Agent) : List Agent := List.insertionSort uidLe l

/-- `ctx.actions`: the uid → action dict collected at the start of `tick()`
in ascending-uid order, substituting `Action("wait", {})` for an empty
slot. -/
def collectedActions (agents : List Agent) : List (Nat × Action) :=
  (sortByUid agents).map (fun a => (a.uid, a.queued.getD .wait))

/-- The roster after every agent's `_take_queued_action()` has cleared its
slot. -/
def clearedRoster (agents : List Agent) : List Agent :=
  agents.map Agent.clearQueued

/-- The pre-move position map `positions` (uid → pos, agents that have a
position, ascending uid). -/
def positionsOf (sorted : List Agent) : List (Nat × Pos) :=
  sorted.filterMap (fun a => a.pos.map (fun p => (a.uid, p)))

/-- The destination an agent's "move" action asks for, when the agent has a
position and its entry in `ctx.actions` is a move: `pos + (dx, dy)`. -/
def moveTarget (acts : List (Nat × Action)) (a : Agent) : Option Pos :=
  match a.pos, dictGet acts a.uid with
  | some p, some (.move d) => some (p.1 + d.dx, p.2 + d.dy)
  | _, _ => none

/-- `desired_moves`: uid → walkable destination, ascending uid. -/
def desiredMoves (g : Grid) (acts : List (Nat × Action)) (sorted : List Agent) :
    List (Nat × Pos) :=
  sorted.filterMap (fun a =>
    (moveTarget acts a).bind (fun t =>
      if g.is_walkable t then some (a.uid, t) else none))

/-- `blocked_targets`: uid → non-walkable destination, ascending uid. -/
def blockedTargets (g : Grid) (acts : List (Nat × Action)) (sorted : List Agent) :
    List (Nat × Pos) :=
  sorted.filterMap (fun a =>
    (moveTarget acts a).bind (fun t =>
      if g.is_walkable t then none else some (a.uid, t)))

/-- Contention: uid `u` is marked when the destination it claims in
`desired_moves` is claimed by at least one other uid (the source groups
entries by destination and marks every claimant of a multiply-claimed
cell). -/
def contended (moves : List (Nat × Pos)) (u : Nat) : Bool :=
  match dictGet moves u with
  | some t => moves.any (fun m => decide (m.1 ≠ u) && decide (m.2 = t))
  | none => false

/-- `pos_to_uid = {pos: uid for uid, pos in positions.items()}`: flipping
the position map; duplicate positions keep the later (larger) uid. -/
def posToUid (positions : List (Nat × Pos)) : List (Pos × Nat) :=
  positions.map (fun e => (e.2, e.1))

/-- Swap detection: uid `u` is marked when some desired move (uid, target)
finds `target` occupied (per the pre-move snapshot) by a different uid whose
own desired move equals the mover's pre-move position; both ends of such a
pair are marked. -/
def swapped (moves positions : List (Nat × Pos)) (u : Nat) : Bool :=
  moves.any (fun m =>
    match dictGet (posToUid positions) m.2 with
    | none => false
    | some other =>
      decide (other ≠ m.1) &&
        decide (dictGet moves other = dictGet positions m.1) &&
        (decide (u = m.1) || decide (u = other)))

/-- Membership in `collision_uids` (computed only under the BLOCK policy):
contention or swap. -/
def collides (policy : CollisionPolicy) (moves positions : List (Nat × Pos))
    (u : Nat) : Bool :=
  match policy with
  | .BLOCK => contended moves u || swapped moves positions u

/-- One iteration of the apply loop for a single agent, given the
precomputed decision dicts: the agent's updated state and the events it
appends.  Branch order follows the source: skip position-less agents;
"wait" → waited; "move" → blocked / collision / moved; any other name →
unknown_action.  The two `none` fallbacks marked unreachable correspond to
`ctx.actions[a.uid]` / `desired_moves[a.uid]` lookups that cannot fail in
any source-reachable state. -/
def applyOne (policy : CollisionPolicy) (acts : List (Nat × Action))
    (moves blocked positions : List (Nat × Pos)) (a : Agent) :
    Agent × List Event :=
  match a.pos with
  | none => (a, [])
  | some _ =>
    match dictGet acts a.uid with
    | none => (a, [])
    | some act =>
      match act with
      | .wait => (a, [⟨"waited", .agent a.uid⟩])
      | .move _ =>
        match dictGet blocked a.uid with
        | some t => (a, [⟨"blocked", .agentTo a.uid t⟩])
        | none =>
          if collides policy moves positions a.uid then
            match dictGet moves a.uid with
            | some t => (a, [⟨"collision", .agentTo a.uid t⟩])
            | none => (a, [])
          else
            match dictGet moves a.uid with
            | some t => ({ a with pos := some t }, [⟨"moved", .agentTo a.uid t⟩])
            | none => (a, [])
      | act => (a, [⟨"unknown_action", .agentName a.uid act.name⟩])

/-- `applyOne` with its decision dicts computed from the sorted roster. -/
def applyAgent (policy : CollisionPolicy) (g : Grid) (acts : List (Nat × Action))
    (sorted : List Agent) (a : Agent) : Agent × List Event :=
  applyOne policy acts (desiredMoves g acts sorted) (blockedTargets g acts sorted)
    (positionsOf sorted) a

/-- The events the apply phase appends, in ascending-uid order. -/
def applyEvents (policy : CollisionPolicy) (g : Grid) (acts : List (Nat × Action))
    (sorted : List Agent) : List Event :=
  sorted.flatMap (fun a => (applyAgent policy g acts sorted a).2)

/-- The roster after the apply phase (the source mutates agents in place;
the roster keeps its insertion order). -/
def applyRoster (policy : CollisionPolicy) (g : Grid) (acts : List (Nat × Action))
    (sorted roster : List Agent) : List Agent :=
  roster.map (fun a => (applyAgent policy g acts sorted a).1)

/-- Run one hook of every registered system, in registration order,
threading the mutable-during-tick state. -/
def runHooks (f : Sys → HookFn) (ss : List Sys) (ag : List Agent)
    (c : TickContext) : List Agent × TickContext :=
  ss.foldl (fun st s => f s st.1 st.2) (ag, c)

/-- `World.tick()`: advance the tick counter; collect queued actions in
ascending-uid order (substituting "wait"); build the context; run pre_tick
hooks; take the pre-move position snapshot; split move intents into desired
and blocked; compute the collision set; apply (one event per positioned
agent, ascending uid); run resolve hooks, then post_tick hooks; snapshot. -/
def World.tick (w : World) : World × TickRes :=
  let t := w.tick_ctr + 1
  let acts0 := collectedActions w.agents
  let roster1 := clearedRoster w.agents
  let ctx0 : TickContext := ⟨t, acts0, [], w.rng⟩
  let pre := runHooks (fun s => s.pre_tick) w.systems roster1 ctx0
  let roster2 := pre.1
  let ctx1 := pre.2
  let sorted2 := sortByUid roster2
  let evs := applyEvents w.collision_policy w.grid ctx1.actions sorted2
  let roster3 := applyRoster w.collision_policy w.grid ctx1.actions sorted2 roster2
  let ctx2 := { ctx1 with events := ctx1.events ++ evs }
  let res := runHooks (fun s => s.resolve) w.systems roster3 ctx2
  let post := runHooks (fun s => s.post_tick) w.systems res.1 res.2
  let w' := { w with tick_ctr := t, agents := post.1, rng := post.2.rng }
  (w', ⟨w'.snapshot, post.2.events⟩)

/-- `observation.py` `VisibleTile`. -/
structure VisibleTile where
  pos : Pos
  tile : String
deriving DecidableEq, Repr

/-- `observation.py` `VisibleEntity`. -/
structure VisibleEntity where
  uid : Nat
  kind : String
  pos : Pos
deriving DecidableEq, Repr

/-- `observation.py` `Observation` (tick, self uid/pos, visible tiles and
entities). -/
structure Observation where
  tick : Nat
  self_uid : Nat
  self_pos : Pos
  tiles : List VisibleTile
  entities : List VisibleEntity
deriving DecidableEq, Repr

/-- The offsets `range(-radius, radius + 1)` iterated by `observe`. -/
def sensorOffsets (radius : Nat) : List Int :=
  (List.range (2 * radius + 1)).map (fun (i : Nat) => (i : Int) - (radius : Int))

/-- Whether `observe` admits offset (dx, dy): `|dx| + |dy| ≤ radius` for
MANHATTAN, `max(|dx|, |dy|) ≤ radius` for SQUARE. -/
def admitsOffset (shape : SensorShape) (radius : Nat) (dx dy : Int) : Bool :=
  match shape with
  | .MANHATTAN => dx.natAbs + dy.natAbs ≤ radius
  | .SQUARE => max dx.natAbs dy.natAbs ≤ radius

/-- The visible-tile list `observe` builds: outer dy ascending, inner dx
ascending, keeping admitted in-bounds cells, each tagged "floor" when
walkable and "wall" otherwise. -/
def visibleTiles (g : Grid) (center : Pos) (sensor : SensorSpec) :
    List VisibleTile :=
  (sensorOffsets sensor.radius).flatMap (fun dy =>
    (sensorOffsets sensor.radius).filterMap (fun dx =>
      if admitsOffset sensor.shape sensor.radius dx dy then
        let p : Pos := (center.1 + dx, center.2 + dy)
        if g.in_bounds p then
          some ⟨p, if g.is_walkable p then "floor" else "wall"⟩
        else none
      else none))

/-- `World.observe(agent)`: reject an agent not attached to this world or
without a position; otherwise compute the sensor-shaped tile list and the
entity list (every agent, ascending uid, whose position lies in the
visible-position set). -/
def World.observe (w : World) (a : Agent) : Except String Observation :=
  if a.world ≠ some w.wid then
    .error "Agent is not spawned in this world."
  else
    match a.pos with
    | none => .error "Agent position is not set."
    | some center =>
      let tiles := visibleTiles w.grid center a.sensor
      let visible := tiles.map VisibleTile.pos
      let entities := (sortByUid w.agents).filterMap (fun b =>
        b.pos.bind (fun p =>
          if p ∈ visible then some (VisibleEntity.mk b.uid "agent" p) else none))
      .ok ⟨w.tick_ctr, a.uid, center, tiles, entities⟩

/-- Modelled from the spec: the messaging layer (the "send" action's
resolution, `MAX_MESSAGE_LEN` truncation and mailbox delivery) is not in
the source tree — only `tests/test_messaging.py` exercises it, and the
spec notes "the source's messaging implementation is not available".
Per §4.6, applying a send truncates the payload to the fixed maximum
length, keeping the prefix. -/
def truncatePayload (maxLen : Nat) (payload : List Char) : List Char :=
  payload.take maxLen

/-- Modelled from the spec: the messages delivered to recipient `dst`
during one tick — each agent holding a "send" action addressed to `dst`
contributes {source uid, truncated payload}; the apply phase runs in
ascending-uid order, so the agents are scanned in sorted order and
same-recipient messages end up ordered by ascending source uid (§4.6). -/
def deliveredTo (maxLen : Nat) (sorted : List Agent) (acts : List (Nat × Action))
    (dst : Nat) : List Message :=
  sorted.filterMap (fun a =>
    match dictGet acts a.uid with
    | some (.send d p) =>
      if d = dst then some ⟨a.uid, truncatePayload maxLen p⟩ else none
    | _ => none)

/-- Modelled from the spec: enqueue every tick's sends into the recipients'
mailboxes (each recipient's mailbox grows by its delivered list). -/
def deliverAll (maxLen : Nat) (sorted : List Agent) (acts : List (Nat × Action))
    (roster : List Agent) : List Agent :=
  roster.map (fun r => { r with mailbox := r.mailbox ++ deliveredTo maxLen sorted acts r.uid })

/-- Modelled from the spec: `World.tick()` with the missing messaging layer
attached — identical to `World.tick` except that the apply phase also
resolves "send" actions by delivering mail (§4.6: "resolved during the
same tick pipeline as movement"). -/
def World.tickWithMail (maxLen : Nat) (w : World) : World × TickRes :=
  let t := w.tick_ctr + 1
  let acts0 := collectedActions w.agents
  let roster1 := clearedRoster w.agents
  let ctx0 : TickContext := ⟨t, acts0, [], w.rng⟩
  let pre := runHooks (fun s => s.pre_tick) w.systems roster1 ctx0
  let roster2 := pre.1
  let ctx1 := pre.2
  let sorted2 := sortByUid roster2
  let evs := applyEvents w.collision_policy w.grid ctx1.actions sorted2
  let roster3 := deliverAll maxLen sorted2 ctx1.actions
    (applyRoster w.collision_policy w.grid ctx1.actions sorted2 roster2)
  let ctx2 := { ctx1 with events := ctx1.events ++ evs }
  let res := runHooks (fun s => s.resolve) w.systems roster3 ctx2
  let post := runHooks (fun s => s.post_tick) w.systems res.1 res.2
  let w' := { w with tick_ctr := t, agents := post.1, rng := post.2.rng }
  (w', ⟨w'.snapshot, post.2.events⟩)

/-- A system whose three hooks append fixed event lists (and touch nothing
else) — the shape of the systems in `tests/test_systems.py`. -/
def mkAppender (pe re po : List Event) : Sys :=
  ⟨fun ag c => (ag, { c with events := c.events ++ pe }),
   fun ag c => (ag, { c with events := c.events ++ re }),
   fun ag c => (ag, { c with events := c.events ++ po })⟩

/-- A caller-side command against a world: spawn a fresh agent (with the
given uid and sensor) at a cell, submit an action to the roster agent with
a given uid, or run one tick.  A failed spawn raises and leaves the world
unchanged. -/
inductive Cmd where
  | spawnAt (uid : Nat) (sensor : SensorSpec) (p : Pos)
  | actOn (uid : Nat) (x : Action)
  | step

/-- Run a command sequence, collecting each tick's (events, snapshot). -/
def runScript (w : World) : List Cmd → World × List (List Event × WorldState)
  | [] => (w, [])
  | .spawnAt uid s p :: cs =>
    runScript (w.spawnRun (Agent.new uid s) p).1 cs
  | .actOn uid x :: cs =>
    runScript
      { w with agents := w.agents.map (fun a => if a.uid = uid then a.act x else a) } cs
  | .step :: cs =>
    let r := w.tick
    let rest := runScript r.1 cs
    (rest.1, (r.2.events, r.2.state) :: rest.2)

/-- Whether an `Except` value is a success. -/
def exceptOk {ε α : Type} : Except ε α → Bool :=
  fun x => match x with | .ok _ => true | .error _ => false

/-! ### Basic lemmas about the dictionary and roster helpers -/

theorem dictGet_eq_none_iff {κ α : Type} [DecidableEq κ] {m : List (κ × α)} {k : κ} :
    dictGet m k = none ↔ ∀ e ∈ m, e.1 ≠ k := by
  induction m with
  | nil => simp [dictGet]
  | cons e rest ih =>
    constructor
    · intro h
      simp only [dictGet] at h
      rcases hr : dictGet rest k with _ | v
      · rw [hr] at h
        intro e' he'
        rcases List.mem_cons.mp he' with rfl | hmem
        · intro hk
          simp [hk] at h
        · exact (ih.mp hr) e' hmem
      · rw [hr] at h
        exact absurd h (by simp)
    · intro h
      have hrest : dictGet rest k = none := ih.mpr (fun e' he' => h e' (List.mem_cons_of_mem _ he'))
      simp [dictGet, hrest, h e (List.mem_cons_self e rest)]

theorem dictGet_mem {κ α : Type} [DecidableEq κ] {m : List (κ × α)} {k : κ} {v : α}
    (h : dictGet m k = some v) : (k, v) ∈ m := by
  induction m with
  | nil => simp [dictGet] at h
  | cons e rest ih =>
    simp only [dictGet] at h
    rcases hr : dictGet rest k with _ | v'
    · rw [hr] at h
      by_cases hk : e.1 = k
      · simp only [hk, if_pos rfl] at h
        cases h
        subst hk
        exact List.mem_cons_self e rest
      · simp [hk] at h
    · rw [hr] at h
      cases h
      exact List.mem_cons_of_mem _ (ih hr)

theorem dictGet_of_mem_nodup {κ α : Type} [DecidableEq κ] {m : List (κ × α)} {k : κ} {v : α}
    (hmem : (k, v) ∈ m) (hn : (m.map Prod.fst).Nodup) : dictGet m k = some v := by
  induction m with
  | nil => simp at hmem
  | cons e rest ih =>
    simp only [List.map_cons, List.nodup_cons] at hn
    rcases List.mem_cons.mp hmem with heq | hmem'
    · have heq' : e = (k, v) := heq.symm
      subst heq'
      have hrest : dictGet rest k = none := by
        rw [dictGet_eq_none_iff]
        intro e' he' hk'
        have hmem2 : e'.1 ∈ rest.map Prod.fst := List.mem_map_of_mem Prod.fst he'
        rw [hk'] at hmem2
        exact hn.1 hmem2
      simp [dictGet, hrest]
    · have := ih hmem' hn.2
      simp [dictGet, this]

theorem dictGet_of_mem_forall {κ α : Type} [DecidableEq κ] {m : List (κ × α)} {k : κ} {v : α}
    (hmem : (k, v) ∈ m) (hall : ∀ e ∈ m, e.1 = k → e.2 = v) : dictGet m k = some v := by
  induction m with
  | nil => simp at hmem
  | cons e rest ih =>
    by_cases hrest : (k, v) ∈ rest
    · have := ih hrest (fun e' he' => hall e' (List.mem_cons_of_mem _ he'))
      simp [dictGet, this]
    · have heq : e = (k, v) := by
        rcases List.mem_cons.mp hmem with h | h
        · exact h.symm
        · exact absurd h hrest
      have hnone : dictGet rest k = none := by
        rw [dictGet_eq_none_iff]
        intro e' he' hk
        exact hrest (by
          have hv := hall e' (List.mem_cons_of_mem _ he') hk
          have : e' = (k, v) := by
            calc e' = (e'.1, e'.2) := rfl
              _ = (k, v) := by rw [hk, hv]
          exact this ▸ he')
      simp [dictGet, hnone, heq]

theorem uid_mem_unique {l : List Agent} (hn : (l.map Agent.uid).Nodup)
    {a b : Agent} (ha : a ∈ l) (hb : b ∈ l) (h : a.uid = b.uid) : a = b :=
  List.inj_on_of_nodup_map hn ha hb h

theorem sortByUid_perm (l : List Agent) : (sortByUid l).Perm l :=
  List.perm_insertionSort uidLe l

theorem mem_sortByUid {l : List Agent} {a : Agent} : a ∈ sortByUid l ↔ a ∈ l :=
  (sortByUid_perm l).mem_iff

theorem sortByUid_map_uid_nodup {l : List Agent} (hn : (l.map Agent.uid).Nodup) :
    ((sortByUid l).map Agent.uid).Nodup :=
  (((sortByUid_perm l).map Agent.uid).nodup_iff).mpr hn

theorem sortByUid_sorted (l : List Agent) : List.Sorted uidLe (sortByUid l) :=
  List.sorted_insertionSort uidLe l

theorem clearQueued_uid (a : Agent) : a.clearQueued.uid = a.uid := rfl

theorem clearQueued_pos (a : Agent) : a.clearQueued.pos = a.pos := rfl

theorem clearedRoster_map_uid (l : List Agent) :
    (clearedRoster l).map Agent.uid = l.map Agent.uid := by
  simp only [clearedRoster, List.map_map]
  exact List.map_congr_left (fun a _ => rfl)

theorem mem_clearedRoster {l : List Agent} {a : Agent} (h : a ∈ l) :
    a.clearQueued ∈ clearedRoster l :=
  List.mem_map_of_mem Agent.clearQueued h

theorem keys_sub_filterMap {β : Type} {l : List Agent} {f : Agent → Option (Nat × β)}
    (hf : ∀ a e, f a = some e → e.1 = a.uid) {k : Nat}
    (hk : k ∈ (l.filterMap f).map Prod.fst) : k ∈ l.map Agent.uid := by
  rcases List.mem_map.mp hk with ⟨e, he, rfl⟩
  rcases List.mem_filterMap.mp he with ⟨a, ha, hfa⟩
  rw [hf a e hfa]
  exact List.mem_map_of_mem Agent.uid ha

theorem keys_nodup_filterMap {β : Type} {l : List Agent} {f : Agent → Option (Nat × β)}
    (hf : ∀ a e, f a = some e → e.1 = a.uid) (hn : (l.map Agent.uid).Nodup) :
    ((l.filterMap f).map Prod.fst).Nodup := by
  induction l with
  | nil => simp
  | cons a t ih =>
    simp only [List.map_cons, List.nodup_cons] at hn
    rcases hfa : f a with _ | e
    · simpa [List.filterMap_cons, hfa] using ih hn.2
    · simp only [List.filterMap_cons, hfa, List.map_cons, List.nodup_cons]
      refine ⟨fun hmem => ?_, ih hn.2⟩
      rw [hf a e hfa] at hmem
      exact hn.1 (keys_sub_filterMap hf hmem)

theorem filterMap_map_sublist {β γ : Type} (l : List Agent) (f : Agent → Option β)
    (g : β → γ) (h : Agent → γ) (hf : ∀ a b, f a = some b → g b = h a) :
    List.Sublist ((l.filterMap f).map g) (l.map h) := by
  induction l with
  | nil => simp
  | cons a t ih =>
    rcases hfa : f a with _ | b
    · simp only [List.filterMap_cons, hfa, List.map_cons]
      exact ih.cons (h a)
    · simp only [List.filterMap_cons, hfa, List.map_cons]
      rw [hf a b hfa]
      exact ih.cons₂ (h a)

/-! ### Structure of the apply phase -/

theorem applyOne_fst (pol : CollisionPolicy) (acts : List (Nat × Action))
    (m b ps : List (Nat × Pos)) (a : Agent) :
    (applyOne pol acts m b ps a).1 = a ∨
      ∃ t, (applyOne pol acts m b ps a).1 = { a with pos := some t } := by
  unfold applyOne
  repeat' split
  all_goals simp

theorem applyOne_fst_uid (pol : CollisionPolicy) (acts : List (Nat × Action))
    (m b ps : List (Nat × Pos)) (a : Agent) :
    ((applyOne pol acts m b ps a).1).uid = a.uid := by
  rcases applyOne_fst pol acts m b ps a with h | ⟨t, h⟩ <;> rw [h]

theorem applyOne_fst_queued (pol : CollisionPolicy) (acts : List (Nat × Action))
    (m b ps : List (Nat × Pos)) (a : Agent) :
    ((applyOne pol acts m b ps a).1).queued = a.queued := by
  rcases applyOne_fst pol acts m b ps a with h | ⟨t, h⟩ <;> rw [h]

theorem applyOne_fst_mailbox (pol : CollisionPolicy) (acts : List (Nat × Action))
    (m b ps : List (Nat × Pos)) (a : Agent) :
    ((applyOne pol acts m b ps a).1).mailbox = a.mailbox := by
  rcases applyOne_fst pol acts m b ps a with h | ⟨t, h⟩ <;> rw [h]

theorem applyAgent_fst_uid (pol : CollisionPolicy) (g : Grid)
    (acts : List (Nat × Action)) (s : List Agent) (a : Agent) :
    ((applyAgent pol g acts s a).1).uid = a.uid :=
  applyOne_fst_uid _ _ _ _ _ _

theorem applyRoster_map_uid (pol : CollisionPolicy) (g : Grid)
    (acts : List (Nat × Action)) (s roster : List Agent) :
    (applyRoster pol g acts s roster).map Agent.uid = roster.map Agent.uid := by
  simp only [applyRoster, List.map_map]
  exact List.map_congr_left (fun a _ => applyAgent_fst_uid pol g acts s a)

/-! ### The tick pipeline with no registered systems -/

theorem tick_no_systems (w : World) (h : w.systems = []) :
    w.tick = ({ w with
        tick_ctr := w.tick_ctr + 1,
        agents := applyRoster w.collision_policy w.grid (collectedActions w.agents)
          (sortByUid (clearedRoster w.agents)) (clearedRoster w.agents) },
      ⟨⟨w.tick_ctr + 1,
        positionsOf (applyRoster w.collision_policy w.grid (collectedActions w.agents)
          (sortByUid (clearedRoster w.agents)) (clearedRoster w.agents))⟩,
       applyEvents w.collision_policy w.grid (collectedActions w.agents)
          (sortByUid (clearedRoster w.agents))⟩) := by
  simp [World.tick, runHooks, h, World.snapshot, positionsOf]

theorem mem_tick_events (w : World) (h : w.systems = []) {a : Agent}
    (ha : a ∈ sortByUid (clearedRoster w.agents)) {e : Event}
    (he : e ∈ (applyAgent w.collision_policy w.grid (collectedActions w.agents)
      (sortByUid (clearedRoster w.agents)) a).2) :
    e ∈ (w.tick).2.events := by
  rw [tick_no_systems w h]
  exact List.mem_flatMap.mpr ⟨a, ha, he⟩

theorem tick_position_lookup (w : World) (h : w.systems = [])
    (hn : (w.agents.map Agent.uid).Nodup) {a : Agent} (ha : a ∈ w.agents) :
    dictGet (w.tick).2.state.positions a.uid
      = ((applyAgent w.collision_policy w.grid (collectedActions w.agents)
          (sortByUid (clearedRoster w.agents)) a.clearQueued).1).pos := by
  rw [tick_no_systems w h]
  have hRuid : (applyRoster w.collision_policy w.grid (collectedActions w.agents)
      (sortByUid (clearedRoster w.agents)) (clearedRoster w.agents)).map Agent.uid
      = w.agents.map Agent.uid := by
    rw [applyRoster_map_uid, clearedRoster_map_uid]
  have hbR : (applyAgent w.collision_policy w.grid (collectedActions w.agents)
      (sortByUid (clearedRoster w.agents)) a.clearQueued).1
      ∈ applyRoster w.collision_policy w.grid (collectedActions w.agents)
          (sortByUid (clearedRoster w.agents)) (clearedRoster w.agents) :=
    List.mem_map_of_mem _ (mem_clearedRoster ha)
  have hbuid : ((applyAgent w.collision_policy w.grid (collectedActions w.agents)
      (sortByUid (clearedRoster w.agents)) a.clearQueued).1).uid = a.uid :=
    applyAgent_fst_uid _ _ _ _ _
  have hposf : ∀ (c : Agent) (e : Nat × Pos),
      c.pos.map (fun p => (c.uid, p)) = some e → e.1 = c.uid := by
    intro c e he
    rcases hc : c.pos with _ | p <;> rw [hc] at he
    · cases he
    · cases he; rfl
  cases hbp : ((applyAgent w.collision_policy w.grid (collectedActions w.agents)
      (sortByUid (clearedRoster w.agents)) a.clearQueued).1).pos with
  | some q =>
    apply dictGet_of_mem_nodup
    · exact List.mem_filterMap.mpr ⟨_, hbR, by rw [hbp]; simp [hbuid]⟩
    · exact keys_nodup_filterMap hposf (hRuid ▸ hn)
  | none =>
    rw [dictGet_eq_none_iff]
    rintro ⟨k, q⟩ he hk
    rcases List.mem_filterMap.mp he with ⟨c, hc, hfc⟩
    rcases hcp : c.pos with _ | p <;> rw [hcp] at hfc
    · cases hfc
    · cases hfc
      have hceq := uid_mem_unique (hRuid ▸ hn) hc hbR (by rw [hbuid]; exact hk)
      rw [hceq, hbp] at hcp
      cases hcp

/-! ### Entries of the per-tick decision dictionaries -/

theorem collectedActions_map_fst (l : List Agent) :
    (collectedActions l).map Prod.fst = (sortByUid l).map Agent.uid := by
  simp only [collectedActions, List.map_map]
  exact List.map_congr_left (fun a _ => rfl)

theorem dictGet_collectedActions {l : List Agent} (hn : (l.map Agent.uid).Nodup)
    {a : Agent} (ha : a ∈ l) :
    dictGet (collectedActions l) a.uid = some (a.queued.getD .wait) := by
  apply dictGet_of_mem_nodup
  · exact List.mem_map_of_mem _ (mem_sortByUid.mpr ha)
  · rw [collectedActions_map_fst]
    exact sortByUid_map_uid_nodup hn

theorem desiredMoves_hf (g : Grid) (acts : List (Nat × Action)) :
    ∀ (a : Agent) (e : Nat × Pos),
      (moveTarget acts a).bind (fun t => if g.is_walkable t then some (a.uid, t) else none)
        = some e → e.1 = a.uid := by
  intro a e he
  rcases hmt : moveTarget acts a with _ | t <;> rw [hmt] at he
  · cases he
  · simp only [Option.some_bind] at he
    by_cases hw : g.is_walkable t <;> simp [hw] at he
    rw [← he]

theorem blockedTargets_hf (g : Grid) (acts : List (Nat × Action)) :
    ∀ (a : Agent) (e : Nat × Pos),
      (moveTarget acts a).bind (fun t => if g.is_walkable t then none else some (a.uid, t))
        = some e → e.1 = a.uid := by
  intro a e he
  rcases hmt : moveTarget acts a with _ | t <;> rw [hmt] at he
  · cases he
  · simp only [Option.some_bind] at he
    by_cases hw : g.is_walkable t <;> simp [hw] at he
    rw [← he]

theorem mem_desiredMoves {g : Grid} {acts : List (Nat × Action)} {s : List Agent}
    {a : Agent} (ha : a ∈ s) {t : Pos} (hmt : moveTarget acts a = some t)
    (hw : g.is_walkable t = true) : (a.uid, t) ∈ desiredMoves g acts s :=
  List.mem_filterMap.mpr ⟨a, ha, by simp [hmt, hw]⟩

theorem desiredMoves_mem_elim {g : Grid} {acts : List (Nat × Action)} {s : List Agent}
    {e : Nat × Pos} (he : e ∈ desiredMoves g acts s) :
    ∃ a ∈ s, a.uid = e.1 ∧ moveTarget acts a = some e.2 ∧ g.is_walkable e.2 = true := by
  rcases List.mem_filterMap.mp he with ⟨a, ha, hfa⟩
  rcases hmt : moveTarget acts a with _ | t <;> rw [hmt] at hfa
  · cases hfa
  · simp only [Option.some_bind] at hfa
    by_cases hw : g.is_walkable t <;> simp [hw] at hfa
    exact ⟨a, ha, by rw [← hfa], by rw [hmt, ← hfa], by rw [← hfa]; exact hw⟩

theorem desiredMoves_keys_nodup {g : Grid} {acts : List (Nat × Action)} {s : List Agent}
    (hn : (s.map Agent.uid).Nodup) :
    ((desiredMoves g acts s).map Prod.fst).Nodup :=
  keys_nodup_filterMap (desiredMoves_hf g acts) hn

theorem dictGet_desiredMoves {g : Grid} {acts : List (Nat × Action)} {s : List Agent}
    (hn : (s.map Agent.uid).Nodup) {a : Agent} (ha : a ∈ s) {t : Pos}
    (hmt : moveTarget acts a = some t) (hw : g.is_walkable t = true) :
    dictGet (desiredMoves g acts s) a.uid = some t :=
  dictGet_of_mem_nodup (mem_desiredMoves ha hmt hw) (desiredMoves_keys_nodup hn)

theorem dictGet_blockedTargets_none {g : Grid} {acts : List (Nat × Action)}
    {s : List Agent} (hn : (s.map Agent.uid).Nodup) {a : Agent} (ha : a ∈ s)
    {t : Pos} (hmt : moveTarget acts a = some t) (hw : g.is_walkable t = true) :
    dictGet (blockedTargets g acts s) a.uid = none := by
  rw [dictGet_eq_none_iff]
  rintro ⟨k, q⟩ he hk
  rcases List.mem_filterMap.mp he with ⟨c, hc, hfc⟩
  have hck : c.uid = a.uid := by
    have := blockedTargets_hf g acts c (k, q) hfc
    rw [← this]; exact hk
  have hca : c = a := uid_mem_unique hn hc ha hck
  subst hca
  rw [hmt] at hfc
  simp [hw] at hfc

theorem mem_positionsOf {s : List Agent} {a : Agent} (ha : a ∈ s) {p : Pos}
    (hp : a.pos = some p) : (a.uid, p) ∈ positionsOf s :=
  List.mem_filterMap.mpr ⟨a, ha, by rw [hp]; rfl⟩

theorem positionsOf_hf : ∀ (a : Agent) (e : Nat × Pos),
    a.pos.map (fun p => (a.uid, p)) = some e → e.1 = a.uid := by
  intro a e he
  rcases hp : a.pos with _ | p <;> rw [hp] at he
  · cases he
  · cases he; rfl

theorem positionsOf_keys_nodup {s : List Agent} (hn : (s.map Agent.uid).Nodup) :
    ((positionsOf s).map Prod.fst).Nodup :=
  keys_nodup_filterMap positionsOf_hf hn

theorem dictGet_positionsOf {s : List Agent} (hn : (s.map Agent.uid).Nodup)
    {a : Agent} (ha : a ∈ s) {p : Pos} (hp : a.pos = some p) :
    dictGet (positionsOf s) a.uid = some p :=
  dictGet_of_mem_nodup (mem_positionsOf ha hp) (positionsOf_keys_nodup hn)

theorem positionsOf_mem_elim {s : List Agent} {e : Nat × Pos}
    (he : e ∈ positionsOf s) : ∃ a ∈ s, a.uid = e.1 ∧ a.pos = some e.2 := by
  rcases List.mem_filterMap.mp he with ⟨a, ha, hfa⟩
  rcases hp : a.pos with _ | p <;> rw [hp] at hfa
  · cases hfa
  · cases hfa
    exact ⟨a, ha, rfl, hp⟩

/-! ### The apply-phase branches -/

theorem applyAgent_wait_case (pol : CollisionPolicy) (g : Grid)
    (acts : List (Nat × Action)) (s : List Agent) {a : Agent} {p : Pos}
    (hp : a.pos = some p) (ha : dictGet acts a.uid = some .wait) :
    applyAgent pol g acts s a = (a, [⟨"waited", .agent a.uid⟩]) := by
  simp [applyAgent, applyOne, hp, ha]

theorem applyAgent_collision_case (pol : CollisionPolicy) (g : Grid)
    (acts : List (Nat × Action)) (s : List Agent) {a : Agent} {p t : Pos} {d : Dir}
    (hp : a.pos = some p) (ha : dictGet acts a.uid = some (.move d))
    (hb : dictGet (blockedTargets g acts s) a.uid = none)
    (hc : collides pol (desiredMoves g acts s) (positionsOf s) a.uid = true)
    (hm : dictGet (desiredMoves g acts s) a.uid = some t) :
    applyAgent pol g acts s a = (a, [⟨"collision", .agentTo a.uid t⟩]) := by
  simp [applyAgent, applyOne, hp, ha, hb, hc, hm]

theorem applyAgent_moved_case (pol : CollisionPolicy) (g : Grid)
    (acts : List (Nat × Action)) (s : List Agent) {a : Agent} {p t : Pos} {d : Dir}
    (hp : a.pos = some p) (ha : dictGet acts a.uid = some (.move d))
    (hb : dictGet (blockedTargets g acts s) a.uid = none)
    (hc : collides pol (desiredMoves g acts s) (positionsOf s) a.uid = false)
    (hm : dictGet (desiredMoves g acts s) a.uid = some t) :
    applyAgent pol g acts s a
      = ({ a with pos := some t }, [⟨"moved", .agentTo a.uid t⟩]) := by
  simp [applyAgent, applyOne, hp, ha, hb, hc, hm]

/-- The decision dictionaries about one agent that queued a `move` toward a
walkable destination: its move target, its `desired_moves` entry, and the
absence of a `blocked_targets` entry. -/
theorem mover_dict_facts (w : World) (A : Agent) (pA t : Pos) (d : Dir)
    (hn : (w.agents.map Agent.uid).Nodup) (hA : A ∈ w.agents)
    (hpA : A.pos = some pA) (hq : A.queued = some (.move d))
    (ht : (pA.1 + d.dx, pA.2 + d.dy) = t) (hw : w.grid.is_walkable t = true) :
    moveTarget (collectedActions w.agents) A.clearQueued = some t
    ∧ dictGet (desiredMoves w.grid (collectedActions w.agents)
        (sortByUid (clearedRoster w.agents))) A.uid = some t
    ∧ dictGet (blockedTargets w.grid (collectedActions w.agents)
        (sortByUid (clearedRoster w.agents))) A.uid = none := by
  have hact : dictGet (collectedActions w.agents) A.uid = some (.move d) := by
    rw [dictGet_collectedActions hn hA, hq]
    rfl
  have hmt : moveTarget (collectedActions w.agents) A.clearQueued = some t := by
    show moveTarget _ _ = _
    unfold moveTarget
    have h1 : A.clearQueued.pos = some pA := hpA
    have h2 : dictGet (collectedActions w.agents) A.clearQueued.uid
        = some (.move d) := hact
    rw [h1, h2]
    simp [ht]
  have hSn : ((sortByUid (clearedRoster w.agents)).map Agent.uid).Nodup :=
    sortByUid_map_uid_nodup ((clearedRoster_map_uid w.agents).symm ▸ hn)
  have hAS : A.clearQueued ∈ sortByUid (clearedRoster w.agents) :=
    mem_sortByUid.mpr (mem_clearedRoster hA)
  have hdm := dictGet_desiredMoves hSn hAS hmt hw
  have hbt := dictGet_blockedTargets_none hSn hAS hmt hw
  exact ⟨hmt, hdm, hbt⟩

/-- A mover marked as colliding receives a "collision" event and keeps its
position through the tick (no registered systems). -/
theorem tick_collision_outcome (w : World) (A : Agent) (pA t : Pos) (d : Dir)
    (hsys : w.systems = []) (hn : (w.agents.map Agent.uid).Nodup)
    (hA : A ∈ w.agents) (hpA : A.pos = some pA)
    (hq : A.queued = some (.move d)) (ht : (pA.1 + d.dx, pA.2 + d.dy) = t)
    (hw : w.grid.is_walkable t = true)
    (hcol : collides w.collision_policy
      (desiredMoves w.grid (collectedActions w.agents) (sortByUid (clearedRoster w.agents)))
      (positionsOf (sortByUid (clearedRoster w.agents))) A.uid = true) :
    (⟨"collision", .agentTo A.uid t⟩ : Event) ∈ (w.tick).2.events
    ∧ dictGet (w.tick).2.state.positions A.uid = some pA := by
  obtain ⟨hmt, hm, hb⟩ := mover_dict_facts w A pA t d hn hA hpA hq ht hw
  have hact : dictGet (collectedActions w.agents) A.uid = some (.move d) := by
    rw [dictGet_collectedActions hn hA, hq]
    rfl
  have happly : applyAgent w.collision_policy w.grid (collectedActions w.agents)
      (sortByUid (clearedRoster w.agents)) A.clearQueued
      = (A.clearQueued, [⟨"collision", .agentTo A.uid t⟩]) :=
    applyAgent_collision_case _ _ _ _ (show A.clearQueued.pos = some pA from hpA)
      hact hb hcol hm
  have hAS : A.clearQueued ∈ sortByUid (clearedRoster w.agents) :=
    mem_sortByUid.mpr (mem_clearedRoster hA)
  constructor
  · exact mem_tick_events w hsys hAS (by rw [happly]; exact List.mem_singleton.mpr rfl)
  · rw [tick_position_lookup w hsys hn hA, happly]
    exact hpA

/-- C1.  If two agents on distinct cells both queue moves into the same
walkable destination, the tick emits a "collision" event for each and
leaves both positions unchanged. -/
theorem tick_same_destination_collision (w : World) (A B : Agent) (dA dB : Dir)
    (pA pB t : Pos)
    (hsys : w.systems = []) (hn : (w.agents.map Agent.uid).Nodup)
    (hA : A ∈ w.agents) (hB : B ∈ w.agents)
    (hpA : A.pos = some pA) (hpB : B.pos = some pB) (hpp : pA ≠ pB)
    (hqA : A.queued = some (.move dA)) (hqB : B.queued = some (.move dB))
    (htA : (pA.1 + dA.dx, pA.2 + dA.dy) = t)
    (htB : (pB.1 + dB.dx, pB.2 + dB.dy) = t)
    (hw : w.grid.is_walkable t = true) :
    (⟨"collision", .agentTo A.uid t⟩ : Event) ∈ (w.tick).2.events
    ∧ (⟨"collision", .agentTo B.uid t⟩ : Event) ∈ (w.tick).2.events
    ∧ dictGet (w.tick).2.state.positions A.uid = some pA
    ∧ dictGet (w.tick).2.state.positions B.uid = some pB := by
  have hABne : A.uid ≠ B.uid := by
    intro h
    have hab := uid_mem_unique hn hA hB h
    rw [hab, hpB] at hpA
    exact hpp (Option.some.inj hpA).symm
  obtain ⟨hmtA, hmA, hbA⟩ := mover_dict_facts w A pA t dA hn hA hpA hqA htA hw
  obtain ⟨hmtB, hmB, hbB⟩ := mover_dict_facts w B pB t dB hn hB hpB hqB htB hw
  have memA := dictGet_mem hmA
  have memB := dictGet_mem hmB
  have hcontA : contended (desiredMoves w.grid (collectedActions w.agents)
      (sortByUid (clearedRoster w.agents))) A.uid = true := by
    unfold contended
    rw [hmA]
    refine List.any_eq_true.mpr ⟨(B.uid, t), memB, ?_⟩
    simp only [Bool.and_eq_true, decide_eq_true_eq]
    exact ⟨fun h => hABne h.symm, trivial⟩
  have hcontB : contended (desiredMoves w.grid (collectedActions w.agents)
      (sortByUid (clearedRoster w.agents))) B.uid = true := by
    unfold contended
    rw [hmB]
    refine List.any_eq_true.mpr ⟨(A.uid, t), memA, ?_⟩
    simp only [Bool.and_eq_true, decide_eq_true_eq]
    exact ⟨hABne, trivial⟩
  have hcolA : collides w.collision_policy (desiredMoves w.grid (collectedActions w.agents)
      (sortByUid (clearedRoster w.agents)))
      (positionsOf (sortByUid (clearedRoster w.agents))) A.uid = true := by
    cases hcp : w.collision_policy
    simp [collides, hcontA]
  have hcolB : collides w.collision_policy (desiredMoves w.grid (collectedActions w.agents)
      (sortByUid (clearedRoster w.agents)))
      (positionsOf (sortByUid (clearedRoster w.agents))) B.uid = true := by
    cases hcp : w.collision_policy
    simp [collides, hcontB]
  obtain ⟨heA, hposA⟩ := tick_collision_outcome w A pA t dA hsys hn hA hpA hqA htA hw hcolA
  obtain ⟨heB, hposB⟩ := tick_collision_outcome w B pB t dB hsys hn hB hpB hqB htB hw hcolB
  exact ⟨heA, heB, hposA, hposB⟩

/-- A 5x5 open grid used by concrete instances. -/
def openGrid5 : Grid := Grid.new 5 5 Floor

/-- A default sensor spec (radius 2, MANHATTAN) for concrete instances. -/
def sensor2M : SensorSpec := ⟨2, .MANHATTAN⟩

/-- C1 witness world: uid 1 at (1,1) moving east, uid 2 at (3,1) moving
west, both into (2,1). -/
def w1ex : World :=
  ⟨openGrid5, .BLOCK, [], 0, none, 0, 0,
   [⟨1, some 0, some (1, 1), some (.move .E), sensor2M, []⟩,
    ⟨2, some 0, some (3, 1), some (.move .W), sensor2M, []⟩]⟩

theorem tick_same_destination_collision_witness :
    (⟨"collision", .agentTo 1 (2, 1)⟩ : Event) ∈ (w1ex.tick).2.events
    ∧ (⟨"collision", .agentTo 2 (2, 1)⟩ : Event) ∈ (w1ex.tick).2.events
    ∧ dictGet (w1ex.tick).2.state.positions 1 = some (1, 1)
    ∧ dictGet (w1ex.tick).2.state.positions 2 = some (3, 1) :=
  tick_same_destination_collision w1ex
    ⟨1, some 0, some (1, 1), some (.move .E), sensor2M, []⟩
    ⟨2, some 0, some (3, 1), some (.move .W), sensor2M, []⟩
    .E .W (1, 1) (3, 1) (2, 1) rfl (by decide) (by decide) (by decide)
    rfl rfl (by decide) rfl rfl (by decide) (by decide) (by decide)

/-- C2 counterexample world: agents 1 and 2 share cell (1,1), agents 3 and
4 share cell (2,1) (such stacked states are reachable because `spawn` never
checks occupancy).  Agent 1 moves east toward (2,1); agent 3 moves west
toward (1,1); agents 2 and 4 have no queued action. -/
def w2ex : World :=
  ⟨openGrid5, .BLOCK, [], 0, none, 0, 0,
   [⟨1, some 0, some (1, 1), some (.move .E), sensor2M, []⟩,
    ⟨2, some 0, some (1, 1), none, sensor2M, []⟩,
    ⟨3, some 0, some (2, 1), some (.move .W), sensor2M, []⟩,
    ⟨4, some 0, some (2, 1), none, sensor2M, []⟩]⟩

/-- C2 as stated is false: in `w2ex`, agent 1 (at P1 = (1,1)) moves toward
P2 = (2,1) and agent 3 (at P2) moves toward P1, both destinations walkable,
yet the tick marks neither as colliding: both receive "moved" events and
both positions change.  The swap check consults `pos_to_uid`, where the
later-uid occupants 2 and 4 have overwritten the movers' cells. -/
theorem tick_swap_collision_counterexample :
    w2ex.grid.is_walkable (1, 1) = true
    ∧ w2ex.grid.is_walkable (2, 1) = true
    ∧ (w2ex.tick).2.events =
        [⟨"moved", .agentTo 1 (2, 1)⟩, ⟨"waited", .agent 2⟩,
         ⟨"moved", .agentTo 3 (1, 1)⟩, ⟨"waited", .agent 4⟩]
    ∧ dictGet (w2ex.tick).2.state.positions 1 = some (2, 1)
    ∧ dictGet (w2ex.tick).2.state.positions 3 = some (1, 1) := by
  decide

theorem mem_clearedRoster_elim {l : List Agent} {a : Agent}
    (h : a ∈ clearedRoster l) : ∃ b ∈ l, a = b.clearQueued := by
  rcases List.mem_map.mp h with ⟨b, hb, hba⟩
  exact ⟨b, hb, hba.symm⟩

/-- C2 amended.  If agent A at P1 moves toward P2 and agent B at P2 moves
toward P1 in the same tick, both destinations walkable, and additionally no
third agent occupies P1 or P2, then both are marked colliding: each gets a
"collision" event and neither position changes. -/
theorem tick_swap_collision (w : World) (A B : Agent) (dA dB : Dir) (pA pB : Pos)
    (hsys : w.systems = []) (hn : (w.agents.map Agent.uid).Nodup)
    (hA : A ∈ w.agents) (hB : B ∈ w.agents)
    (hpA : A.pos = some pA) (hpB : B.pos = some pB) (hpp : pA ≠ pB)
    (hqA : A.queued = some (.move dA)) (hqB : B.queued = some (.move dB))
    (htA : (pA.1 + dA.dx, pA.2 + dA.dy) = pB)
    (htB : (pB.1 + dB.dx, pB.2 + dB.dy) = pA)
    (hwA : w.grid.is_walkable pA = true) (hwB : w.grid.is_walkable pB = true)
    (_huA : ∀ c ∈ w.agents, c.pos = some pA → c.uid = A.uid)
    (huB : ∀ c ∈ w.agents, c.pos = some pB → c.uid = B.uid) :
    (⟨"collision", .agentTo A.uid pB⟩ : Event) ∈ (w.tick).2.events
    ∧ (⟨"collision", .agentTo B.uid pA⟩ : Event) ∈ (w.tick).2.events
    ∧ dictGet (w.tick).2.state.positions A.uid = some pA
    ∧ dictGet (w.tick).2.state.positions B.uid = some pB := by
  have hABne : A.uid ≠ B.uid := by
    intro h
    have hab := uid_mem_unique hn hA hB h
    rw [hab, hpB] at hpA
    exact hpp (Option.some.inj hpA).symm
  obtain ⟨hmtA, hmA, hbA⟩ := mover_dict_facts w A pA pB dA hn hA hpA hqA htA hwB
  obtain ⟨hmtB, hmB, hbB⟩ := mover_dict_facts w B pB pA dB hn hB hpB hqB htB hwA
  have hSn : ((sortByUid (clearedRoster w.agents)).map Agent.uid).Nodup :=
    sortByUid_map_uid_nodup ((clearedRoster_map_uid w.agents).symm ▸ hn)
  have hAS : A.clearQueued ∈ sortByUid (clearedRoster w.agents) :=
    mem_sortByUid.mpr (mem_clearedRoster hA)
  have hBS : B.clearQueued ∈ sortByUid (clearedRoster w.agents) :=
    mem_sortByUid.mpr (mem_clearedRoster hB)
  have hPA : dictGet (positionsOf (sortByUid (clearedRoster w.agents))) A.uid
      = some pA :=
    dictGet_positionsOf hSn hAS (show A.clearQueued.pos = some pA from hpA)
  -- the flipped position dict maps pB to B's uid, since B is the sole occupant
  have hptu : dictGet (posToUid (positionsOf (sortByUid (clearedRoster w.agents)))) pB
      = some B.uid := by
    apply dictGet_of_mem_forall
    · exact List.mem_map_of_mem (fun e => (e.2, e.1))
        (mem_positionsOf hBS (show B.clearQueued.pos = some pB from hpB))
    · rintro ⟨p, u⟩ he hp
      rcases List.mem_map.mp he with ⟨e, he', heq⟩
      have h1 : e.2 = p := congrArg Prod.fst heq
      have h2 : e.1 = u := congrArg Prod.snd heq
      rcases positionsOf_mem_elim he' with ⟨c, hcS, hcu, hcp⟩
      rcases mem_clearedRoster_elim (mem_sortByUid.mp hcS) with ⟨b, hbw, hcb⟩
      have hbpos : b.pos = some pB := by
        rw [← clearQueued_pos b, ← hcb, hcp, h1]
        exact congrArg some hp
      show u = B.uid
      rw [← h2, ← hcu, hcb, clearQueued_uid]
      exact huB b hbw hbpos
  have hswA : swapped (desiredMoves w.grid (collectedActions w.agents)
        (sortByUid (clearedRoster w.agents)))
      (positionsOf (sortByUid (clearedRoster w.agents))) A.uid = true := by
    refine List.any_eq_true.mpr ⟨(A.uid, pB), dictGet_mem hmA, ?_⟩
    simp only [hptu, Bool.and_eq_true, Bool.or_eq_true, decide_eq_true_eq]
    exact ⟨⟨fun h => hABne h.symm, by rw [hmB, hPA]⟩, Or.inl trivial⟩
  have hswB : swapped (desiredMoves w.grid (collectedActions w.agents)
        (sortByUid (clearedRoster w.agents)))
      (positionsOf (sortByUid (clearedRoster w.agents))) B.uid = true := by
    refine List.any_eq_true.mpr ⟨(A.uid, pB), dictGet_mem hmA, ?_⟩
    simp only [hptu, Bool.and_eq_true, Bool.or_eq_true, decide_eq_true_eq]
    exact ⟨⟨fun h => hABne h.symm, by rw [hmB, hPA]⟩, Or.inr trivial⟩
  have hcolA : collides w.collision_policy (desiredMoves w.grid (collectedActions w.agents)
      (sortByUid (clearedRoster w.agents)))
      (positionsOf (sortByUid (clearedRoster w.agents))) A.uid = true := by
    cases hcp : w.collision_policy
    simp [collides, hswA]
  have hcolB : collides w.collision_policy (desiredMoves w.grid (collectedActions w.agents)
      (sortByUid (clearedRoster w.agents)))
      (positionsOf (sortByUid (clearedRoster w.agents))) B.uid = true := by
    cases hcp : w.collision_policy
    simp [collides, hswB]
  obtain ⟨heA, hposA⟩ := tick_collision_outcome w A pA pB dA hsys hn hA hpA hqA htA hwB hcolA
  obtain ⟨heB, hposB⟩ := tick_collision_outcome w B pB pA dB hsys hn hB hpB hqB htB hwA hcolB
  exact ⟨heA, heB, hposA, hposB⟩

/-- C2 witness world: uid 1 at (1,1) moving east, uid 2 at (2,1) moving
west — a pure swap attempt with sole occupancy. -/
def w2wit : World :=
  ⟨openGrid5, .BLOCK, [], 0, none, 0, 0,
   [⟨1, some 0, some (1, 1), some (.move .E), sensor2M, []⟩,
    ⟨2, some 0, some (2, 1), some (.move .W), sensor2M, []⟩]⟩

theorem tick_swap_collision_witness :
    (⟨"collision", .agentTo 1 (2, 1)⟩ : Event) ∈ (w2wit.tick).2.events
    ∧ (⟨"collision", .agentTo 2 (1, 1)⟩ : Event) ∈ (w2wit.tick).2.events
    ∧ dictGet (w2wit.tick).2.state.positions 1 = some (1, 1)
    ∧ dictGet (w2wit.tick).2.state.positions 2 = some (2, 1) :=
  tick_swap_collision w2wit
    ⟨1, some 0, some (1, 1), some (.move .E), sensor2M, []⟩
    ⟨2, some 0, some (2, 1), some (.move .W), sensor2M, []⟩
    .E .W (1, 1) (2, 1) rfl (by decide) (by decide) (by decide)
    rfl rfl (by decide) rfl rfl (by decide) (by decide) (by decide) (by decide)
    (by decide) (by decide)

/-- Running one hook phase over appender systems: the roster is unchanged
and each system's fixed event list is appended, in registration order. -/
theorem runHooks_appenders_pre (triples : List (List Event × List Event × List Event))
    (ag : List Agent) (c : TickContext) :
    runHooks (fun s => s.pre_tick) (triples.map (fun tr => mkAppender tr.1 tr.2.1 tr.2.2)) ag c
      = (ag, { c with events := c.events ++ (triples.map (fun tr => tr.1)).flatten }) := by
  induction triples generalizing c with
  | nil => simp [runHooks]
  | cons tr rest ih =>
    have hstep : runHooks (fun s => s.pre_tick)
        ((tr :: rest).map (fun tr => mkAppender tr.1 tr.2.1 tr.2.2)) ag c
        = runHooks (fun s => s.pre_tick)
            (rest.map (fun tr => mkAppender tr.1 tr.2.1 tr.2.2)) ag
            { c with events := c.events ++ tr.1 } := rfl
    rw [hstep, ih]
    simp [List.append_assoc]

theorem runHooks_appenders_resolve (triples : List (List Event × List Event × List Event))
    (ag : List Agent) (c : TickContext) :
    runHooks (fun s => s.resolve) (triples.map (fun tr => mkAppender tr.1 tr.2.1 tr.2.2)) ag c
      = (ag, { c with events := c.events ++ (triples.map (fun tr => tr.2.1)).flatten }) := by
  induction triples generalizing c with
  | nil => simp [runHooks]
  | cons tr rest ih =>
    have hstep : runHooks (fun s => s.resolve)
        ((tr :: rest).map (fun tr => mkAppender tr.1 tr.2.1 tr.2.2)) ag c
        = runHooks (fun s => s.resolve)
            (rest.map (fun tr => mkAppender tr.1 tr.2.1 tr.2.2)) ag
            { c with events := c.events ++ tr.2.1 } := rfl
    rw [hstep, ih]
    simp [List.append_assoc]

theorem runHooks_appenders_post (triples : List (List Event × List Event × List Event))
    (ag : List Agent) (c : TickContext) :
    runHooks (fun s => s.post_tick) (triples.map (fun tr => mkAppender tr.1 tr.2.1 tr.2.2)) ag c
      = (ag, { c with events := c.events ++ (triples.map (fun tr => tr.2.2)).flatten }) := by
  induction triples generalizing c with
  | nil => simp [runHooks]
  | cons tr rest ih =>
    have hstep : runHooks (fun s => s.post_tick)
        ((tr :: rest).map (fun tr => mkAppender tr.1 tr.2.1 tr.2.2)) ag c
        = runHooks (fun s => s.post_tick)
            (rest.map (fun tr => mkAppender tr.1 tr.2.1 tr.2.2)) ag
            { c with events := c.events ++ tr.2.2 } := rfl
    rw [hstep, ih]
    simp [List.append_assoc]

/-- C3 concrete world: two appender systems A then B and one agent with no
queued action (it will wait). -/
def w3ex : World :=
  ⟨Grid.new 3 3 Floor, .BLOCK,
   [mkAppender [⟨"sysA.pre", .unit⟩] [⟨"sysA.resolve", .unit⟩] [⟨"sysA.post", .unit⟩],
    mkAppender [⟨"sysB.pre", .unit⟩] [⟨"sysB.resolve", .unit⟩] [⟨"sysB.post", .unit⟩]],
   0, none, 0, 0,
   [⟨1, some 0, some (1, 1), none, sensor2M, []⟩]⟩

/-- C3.  Tick events are ordered by phase.  First conjunct: for any world
whose systems are event appenders, the event sequence is exactly the
pre_tick appends (registration order), then the apply-phase events
(ascending uid), then the resolve appends, then the post_tick appends.
Second conjunct: with systems [A, B] and one waiting agent the sequence is
exactly [A.pre, B.pre, "waited", A.resolve, B.resolve, A.post, B.post]. -/
theorem tick_phase_order :
    (∀ (g : Grid) (pol : CollisionPolicy) (wid rng tc : Nat) (sd : Option Nat)
       (agents : List Agent) (triples : List (List Event × List Event × List Event)),
       ((World.mk g pol (triples.map (fun tr => mkAppender tr.1 tr.2.1 tr.2.2))
           wid sd rng tc agents).tick).2.events
         = (triples.map (fun tr => tr.1)).flatten
           ++ applyEvents pol g (collectedActions agents) (sortByUid (clearedRoster agents))
           ++ (triples.map (fun tr => tr.2.1)).flatten
           ++ (triples.map (fun tr => tr.2.2)).flatten)
    ∧ (w3ex.tick).2.events =
        [⟨"sysA.pre", .unit⟩, ⟨"sysB.pre", .unit⟩, ⟨"waited", .agent 1⟩,
         ⟨"sysA.resolve", .unit⟩, ⟨"sysB.resolve", .unit⟩,
         ⟨"sysA.post", .unit⟩, ⟨"sysB.post", .unit⟩] := by
  constructor
  · intro g pol wid rng tc sd agents triples
    simp [World.tick, runHooks_appenders_pre, runHooks_appenders_resolve,
      runHooks_appenders_post, List.append_assoc]
  · decide

/-- C4.  (i) `act` overwrites the single pending slot, so the last action
submitted before a tick wins; (ii) the tick consumes the slot: after a tick
(no systems, which could re-fill slots) every roster agent's slot is empty;
(iii) a positioned agent with an empty slot is defaulted to "wait": the
tick emits a "waited" event for it and leaves its position unchanged. -/
theorem act_overwrites_and_tick_consumes :
    (∀ (a : Agent) (x y : Action), (a.act x).act y = a.act y)
    ∧ (∀ w : World, w.systems = [] → ∀ a' ∈ (w.tick).1.agents, a'.queued = none)
    ∧ (∀ (w : World) (a : Agent) (p : Pos), w.systems = [] →
        (w.agents.map Agent.uid).Nodup → a ∈ w.agents → a.pos = some p →
        a.queued = none →
        (⟨"waited", .agent a.uid⟩ : Event) ∈ (w.tick).2.events
        ∧ dictGet (w.tick).2.state.positions a.uid = some p) := by
  refine ⟨fun a x y => rfl, ?_, ?_⟩
  · intro w hsys a' ha'
    rw [tick_no_systems w hsys] at ha'
    rcases List.mem_map.mp ha' with ⟨b, hb, hba⟩
    rcases List.mem_map.mp hb with ⟨c, _hc, hcb⟩
    rw [← hba]
    have hqq : ((applyAgent w.collision_policy w.grid (collectedActions w.agents)
        (sortByUid (clearedRoster w.agents)) b).1).queued = b.queued :=
      applyOne_fst_queued _ _ _ _ _ _
    rw [hqq, ← hcb]
    rfl
  · intro w a p hsys hn ha hp hq
    have hact : dictGet (collectedActions w.agents) a.uid = some .wait := by
      rw [dictGet_collectedActions hn ha, hq]
      rfl
    have happly : applyAgent w.collision_policy w.grid (collectedActions w.agents)
        (sortByUid (clearedRoster w.agents)) a.clearQueued
        = (a.clearQueued, [⟨"waited", .agent a.uid⟩]) :=
      applyAgent_wait_case _ _ _ _ (show a.clearQueued.pos = some p from hp) hact
    have haS : a.clearQueued ∈ sortByUid (clearedRoster w.agents) :=
      mem_sortByUid.mpr (mem_clearedRoster ha)
    constructor
    · exact mem_tick_events w hsys haS (by rw [happly]; exact List.mem_singleton.mpr rfl)
    · rw [tick_position_lookup w hsys hn ha, happly]
      exact hp

/-- C4 witness world: a single agent, empty action slot. -/
def w4ex : World :=
  ⟨openGrid5, .BLOCK, [], 0, none, 0, 0,
   [⟨1, some 0, some (1, 1), none, sensor2M, []⟩]⟩

theorem act_overwrites_and_tick_consumes_witness :
    (⟨"waited", .agent 1⟩ : Event) ∈ (w4ex.tick).2.events
    ∧ dictGet (w4ex.tick).2.state.positions 1 = some (1, 1) :=
  act_overwrites_and_tick_consumes.2.2 w4ex
    ⟨1, some 0, some (1, 1), none, sensor2M, []⟩ (1, 1)
    rfl (by decide) (by decide) rfl rfl

/-- `World.add_system` repeated over a registration sequence. -/
def World.addSystems (w : World) (ss : List Sys) : World :=
  ss.foldl World.add_system w

theorem addSystems_eq (w : World) (ss : List Sys) :
    w.addSystems ss = { w with systems := w.systems ++ ss } := by
  induction ss generalizing w with
  | nil => simp [World.addSystems]
  | cons s rest ih =>
    show (w.add_system s).addSystems rest = _
    rw [ih]
    simp [World.add_system]

/-- C5.  Determinism: two worlds constructed independently (with arbitrary,
possibly different OS entropy at construction and at reset), reset with the
same seed, registered with the same system sequence, and driven by the same
spawn/act/tick script, produce identical tick outputs (event sequences and
snapshots) and identical final states. -/
theorem run_determinism (g : Grid) (pol : CollisionPolicy) (ss : List Sys)
    (wid e0 e0' e1 e2 s : Nat) (script : List Cmd) :
    runScript (((World.init g pol wid e0).addSystems ss).reset (some s) e1) script
      = runScript (((World.init g pol wid e0').addSystems ss).reset (some s) e2) script := by
  have h : ((World.init g pol wid e0).addSystems ss).reset (some s) e1
      = ((World.init g pol wid e0').addSystems ss).reset (some s) e2 := by
    rw [addSystems_eq, addSystems_eq]
    simp [World.reset, World.init]
  rw [h]

/-- The shape-dependent distance used by the sensor: Manhattan or Chebyshev
distance between the center and a cell. -/
def shapeDist (shape : SensorShape) (c p : Pos) : Nat :=
  match shape with
  | .MANHATTAN => (p.1 - c.1).natAbs + (p.2 - c.2).natAbs
  | .SQUARE => max (p.1 - c.1).natAbs (p.2 - c.2).natAbs

theorem mem_sensorOffsets {r : Nat} {x : Int} :
    x ∈ sensorOffsets r ↔ -(r : Int) ≤ x ∧ x ≤ r := by
  unfold sensorOffsets
  constructor
  · intro hx
    rcases List.mem_map.mp hx with ⟨i, hi, hix⟩
    have hi2 := List.mem_range.mp hi
    constructor <;> omega
  · rintro ⟨h1, h2⟩
    exact List.mem_map.mpr ⟨(x + r).toNat, List.mem_range.mpr (by omega), by omega⟩

theorem mem_visibleTiles_iff (g : Grid) (c : Pos) (sen : SensorSpec) (p : Pos) :
    (∃ tl ∈ visibleTiles g c sen, tl.pos = p)
      ↔ (g.in_bounds p = true ∧ shapeDist sen.shape c p ≤ sen.radius) := by
  obtain ⟨r, shape⟩ := sen
  constructor
  · rintro ⟨tl, htl, rfl⟩
    simp only [visibleTiles, List.mem_flatMap, List.mem_filterMap] at htl
    rcases htl with ⟨dy, _hdy, dx, _hdx, hf⟩
    by_cases hadm : admitsOffset shape r dx dy = true
    · rw [if_pos hadm] at hf
      by_cases hib : g.in_bounds (c.1 + dx, c.2 + dy) = true
      · rw [if_pos hib] at hf
        cases hf
        refine ⟨hib, ?_⟩
        cases shape
        · simp only [admitsOffset, decide_eq_true_eq] at hadm
          simp only [shapeDist]
          omega
        · simp only [admitsOffset, decide_eq_true_eq, Nat.max_le] at hadm
          simp only [shapeDist, Nat.max_le]
          constructor <;> omega
      · rw [if_neg hib] at hf
        cases hf
    · rw [if_neg hadm] at hf
      cases hf
  · rintro ⟨hib, hdist⟩
    refine ⟨⟨p, if g.is_walkable p then "floor" else "wall"⟩, ?_, rfl⟩
    simp only [visibleTiles, List.mem_flatMap, List.mem_filterMap]
    have hbounds : (p.1 - c.1).natAbs ≤ r ∧ (p.2 - c.2).natAbs ≤ r := by
      cases shape
      · simp only [shapeDist] at hdist
        constructor <;> omega
      · simp only [shapeDist, Nat.max_le] at hdist
        exact hdist
    have hadm : admitsOffset shape r (p.1 - c.1) (p.2 - c.2) = true := by
      cases shape
      · simp only [shapeDist] at hdist
        simp only [admitsOffset, decide_eq_true_eq]
        omega
      · simp only [shapeDist, Nat.max_le] at hdist
        simp only [admitsOffset, decide_eq_true_eq, Nat.max_le]
        exact hdist
    refine ⟨p.2 - c.2, mem_sensorOffsets.mpr ⟨by omega, by omega⟩,
      p.1 - c.1, mem_sensorOffsets.mpr ⟨by omega, by omega⟩, ?_⟩
    rw [if_pos hadm]
    have hpe : ((c.1 + (p.1 - c.1), c.2 + (p.2 - c.2)) : Pos) = p := by
      have h1 : c.1 + (p.1 - c.1) = p.1 := by ring
      have h2 : c.2 + (p.2 - c.2) = p.2 := by ring
      rw [Prod.ext_iff]
      exact ⟨h1, h2⟩
    rw [hpe, if_pos hib]

theorem visibleTiles_kind (g : Grid) (c : Pos) (sen : SensorSpec) :
    ∀ tl ∈ visibleTiles g c sen,
      tl.tile = if g.is_walkable tl.pos then "floor" else "wall" := by
  intro tl htl
  simp only [visibleTiles, List.mem_flatMap, List.mem_filterMap] at htl
  rcases htl with ⟨dy, _hdy, dx, _hdx, hf⟩
  by_cases hadm : admitsOffset sen.shape sen.radius dx dy = true
  · rw [if_pos hadm] at hf
    by_cases hib : g.in_bounds (c.1 + dx, c.2 + dy) = true
    · rw [if_pos hib] at hf
      cases hf
      rfl
    · rw [if_neg hib] at hf
      cases hf
  · rw [if_neg hadm] at hf
    cases hf

/-- C6 concrete world: observer uid 7, MANHATTAN sensor of radius 1,
centered at (2,2) on an open 5x5 grid. -/
def ag6 : Agent := ⟨7, some 0, some (2, 2), none, ⟨1, .MANHATTAN⟩, []⟩

def w6ex : World := ⟨openGrid5, .BLOCK, [], 0, none, 0, 0, [ag6]⟩

/-- C6.  General conjunct: `observe` on an attached, positioned agent
succeeds and reports exactly the in-bounds cells within the shape-dependent
sensor distance (out-of-bounds candidates are skipped, not errors), tags
each reported tile "floor" or "wall" according to `is_walkable`, and lists
the in-bounds observer among the visible entities.  Concrete conjunct: a
MANHATTAN radius-1 sensor at (2,2) on an open 5x5 grid sees exactly the
cells (2,1), (1,2), (2,2), (3,2), (2,3), with the observer visible. -/
theorem observe_sensor_spec :
    (∀ (w : World) (a : Agent) (c : Pos),
       a.world = some w.wid → a.pos = some c →
       ∃ obs, w.observe a = .ok obs
         ∧ (∀ p : Pos, (∃ tl ∈ obs.tiles, tl.pos = p)
              ↔ (w.grid.in_bounds p = true ∧ shapeDist a.sensor.shape c p ≤ a.sensor.radius))
         ∧ (∀ tl ∈ obs.tiles, tl.tile = if w.grid.is_walkable tl.pos then "floor" else "wall")
         ∧ (w.grid.in_bounds c = true → a ∈ w.agents →
              (⟨a.uid, "agent", c⟩ : VisibleEntity) ∈ obs.entities))
    ∧ ((w6ex.observe ag6).toOption.map (fun o => o.tiles.map VisibleTile.pos)
         = some [(2, 1), (1, 2), (2, 2), (3, 2), (2, 3)]
       ∧ (w6ex.observe ag6).toOption.map
           (fun o => decide ((⟨7, "agent", (2, 2)⟩ : VisibleEntity) ∈ o.entities))
         = some true) := by
  constructor
  · intro w a c hw hp
    have hobs : w.observe a = .ok
        ⟨w.tick_ctr, a.uid, c, visibleTiles w.grid c a.sensor,
         (sortByUid w.agents).filterMap (fun b =>
           b.pos.bind (fun p =>
             if p ∈ (visibleTiles w.grid c a.sensor).map VisibleTile.pos
             then some (VisibleEntity.mk b.uid "agent" p) else none))⟩ := by
      simp [World.observe, hw, hp]
    refine ⟨_, hobs, ?_, ?_, ?_⟩
    · intro p
      exact mem_visibleTiles_iff w.grid c a.sensor p
    · exact visibleTiles_kind w.grid c a.sensor
    · intro hin ha
      have hc0 : shapeDist a.sensor.shape c c ≤ a.sensor.radius := by
        cases hs : a.sensor.shape <;> simp [shapeDist]
      rcases (mem_visibleTiles_iff w.grid c a.sensor c).mpr ⟨hin, hc0⟩
        with ⟨tl, htl, htlp⟩
      have hcvis : c ∈ (visibleTiles w.grid c a.sensor).map VisibleTile.pos :=
        List.mem_map.mpr ⟨tl, htl, htlp⟩
      refine List.mem_filterMap.mpr ⟨a, mem_sortByUid.mpr ha, ?_⟩
      rw [hp]
      simp only [Option.some_bind]
      rw [if_pos hcvis]
  · constructor
    · decide
    · decide

theorem observe_sensor_spec_witness :
    exceptOk (w6ex.observe ag6) = true := by
  obtain ⟨obs, hobs, -, -, -⟩ := observe_sensor_spec.1 w6ex ag6 (2, 2) rfl rfl
  rw [hobs]
  rfl

theorem tickWithMail_no_systems (maxLen : Nat) (w : World) (h : w.systems = []) :
    (World.tickWithMail maxLen w).1.agents
      = deliverAll maxLen (sortByUid (clearedRoster w.agents)) (collectedActions w.agents)
          (applyRoster w.collision_policy w.grid (collectedActions w.agents)
            (sortByUid (clearedRoster w.agents)) (clearedRoster w.agents)) := by
  simp [World.tickWithMail, runHooks, h]

/-- C7 (spec-modelled).  A "send" action enqueues {source uid, prefix-kept
truncated payload} into the recipient's mailbox during the tick; an
over-length payload is delivered with length exactly the bound; and the
messages delivered to one recipient in a tick carry strictly ascending
source uids. -/
theorem send_delivery_truncation_order (maxLen : Nat) (w : World) (a r : Agent)
    (d : Nat) (p : List Char)
    (hsys : w.systems = []) (hn : (w.agents.map Agent.uid).Nodup)
    (ha : a ∈ w.agents) (hq : a.queued = some (.send d p))
    (hr : r ∈ w.agents) (hrd : r.uid = d) :
    (∃ r' ∈ (World.tickWithMail maxLen w).1.agents,
       r'.uid = d ∧ (⟨a.uid, truncatePayload maxLen p⟩ : Message) ∈ r'.mailbox)
    ∧ (maxLen ≤ p.length → (truncatePayload maxLen p).length = maxLen)
    ∧ List.Pairwise (fun m1 m2 => m1.src_uid < m2.src_uid)
        (deliveredTo maxLen (sortByUid (clearedRoster w.agents))
          (collectedActions w.agents) d) := by
  have hact : dictGet (collectedActions w.agents) a.uid = some (.send d p) := by
    rw [dictGet_collectedActions hn ha, hq]
    rfl
  have hAS : a.clearQueued ∈ sortByUid (clearedRoster w.agents) :=
    mem_sortByUid.mpr (mem_clearedRoster ha)
  have hSn : ((sortByUid (clearedRoster w.agents)).map Agent.uid).Nodup :=
    sortByUid_map_uid_nodup ((clearedRoster_map_uid w.agents).symm ▸ hn)
  refine ⟨?_, ?_, ?_⟩
  · have hmsg : (⟨a.uid, truncatePayload maxLen p⟩ : Message)
        ∈ deliveredTo maxLen (sortByUid (clearedRoster w.agents))
            (collectedActions w.agents) d := by
      refine List.mem_filterMap.mpr ⟨a.clearQueued, hAS, ?_⟩
      have hact2 : dictGet (collectedActions w.agents) a.clearQueued.uid
          = some (.send d p) := hact
      rw [hact2]
      simp [Agent.clearQueued]
    rw [tickWithMail_no_systems maxLen w hsys]
    have hr1 : (applyAgent w.collision_policy w.grid (collectedActions w.agents)
        (sortByUid (clearedRoster w.agents)) r.clearQueued).1
        ∈ applyRoster w.collision_policy w.grid (collectedActions w.agents)
            (sortByUid (clearedRoster w.agents)) (clearedRoster w.agents) :=
      List.mem_map_of_mem _ (mem_clearedRoster hr)
    have hr1uid : ((applyAgent w.collision_policy w.grid (collectedActions w.agents)
        (sortByUid (clearedRoster w.agents)) r.clearQueued).1).uid = d := by
      rw [applyAgent_fst_uid]
      exact hrd
    refine ⟨_, List.mem_map_of_mem _ hr1, ?_, ?_⟩
    · exact hr1uid
    · show _ ∈ _ ++ deliveredTo maxLen _ _ _
      rw [hr1uid]
      exact List.mem_append_right _ hmsg
  · intro hlen
    simp only [truncatePayload, List.length_take]
    omega
  · have hpw : List.Pairwise (fun x y : Nat => x < y)
        ((sortByUid (clearedRoster w.agents)).map Agent.uid) := by
      have hle : List.Pairwise (fun x y : Nat => x ≤ y)
          ((sortByUid (clearedRoster w.agents)).map Agent.uid) :=
        List.pairwise_map.mpr (sortByUid_sorted (clearedRoster w.agents))
      have hand := hle.and hSn
      exact hand.imp (fun hb => lt_of_le_of_ne hb.1 hb.2)
    have hsub : List.Sublist
        ((deliveredTo maxLen (sortByUid (clearedRoster w.agents))
            (collectedActions w.agents) d).map Message.src_uid)
        ((sortByUid (clearedRoster w.agents)).map Agent.uid) := by
      apply filterMap_map_sublist
      intro b m hm
      rcases hbact : dictGet (collectedActions w.agents) b.uid with _ | act
      · rw [hbact] at hm
        exact Option.noConfusion hm
      · rw [hbact] at hm
        cases act with
        | send d2 p2 =>
          have hm2 : (if d2 = d
              then some (⟨b.uid, truncatePayload maxLen p2⟩ : Message)
              else none) = some m := hm
          by_cases hd2 : d2 = d
          · rw [if_pos hd2] at hm2
            cases hm2
            rfl
          · rw [if_neg hd2] at hm2
            exact Option.noConfusion hm2
        | move dir => exact Option.noConfusion hm
        | wait => exact Option.noConfusion hm
        | other n => exact Option.noConfusion hm
    have := hpw.sublist hsub
    exact List.pairwise_map.mp this

/-- C7 witness world: agents 2 and 1 (spawned in that roster order) each
send to agent 3; agent 1's payload is longer than the bound 2. -/
def w7ex : World :=
  ⟨openGrid5, .BLOCK, [], 0, none, 0, 0,
   [⟨2, some 0, some (1, 1), some (.send 3 ['o', 'k']), sensor2M, []⟩,
    ⟨1, some 0, some (0, 1), some (.send 3 ['a', 'b', 'c']), sensor2M, []⟩,
    ⟨3, some 0, some (2, 1), none, sensor2M, []⟩]⟩

theorem send_delivery_truncation_order_witness :
    (truncatePayload 2 ['a', 'b', 'c']).length = 2
    ∧ List.Pairwise (fun m1 m2 => m1.src_uid < m2.src_uid)
        (deliveredTo 2 (sortByUid (clearedRoster w7ex.agents))
          (collectedActions w7ex.agents) 3) := by
  obtain ⟨-, htrunc, hord⟩ := send_delivery_truncation_order 2 w7ex
    ⟨1, some 0, some (0, 1), some (.send 3 ['a', 'b', 'c']), sensor2M, []⟩
    ⟨3, some 0, some (2, 1), none, sensor2M, []⟩
    3 ['a', 'b', 'c'] rfl (by decide) (by decide) rfl (by decide) rfl
  exact ⟨htrunc (by decide), hord⟩


/-- C8.  `spawn` fails exactly when the agent is already attached or the
target is not walkable; a failure propagates leaving the caller's world and
agent values untouched; a success attaches the agent to this world, places
it at the target, appends it to the roster and changes nothing else. -/
theorem spawn_validation (w : World) (a : Agent) (p : Pos) :
    ((∃ e, w.spawn a p = .error e) ↔ (a.world ≠ none ∨ w.grid.is_walkable p = false))
    ∧ (∀ e, w.spawn a p = .error e → w.spawnRun a p = (w, a))
    ∧ (∀ w' a', w.spawn a p = .ok (w', a') →
        a'.world = some w.wid ∧ a'.pos = some p ∧ w'.agents = w.agents ++ [a']
        ∧ a'.uid = a.uid ∧ a'.queued = a.queued ∧ a'.sensor = a.sensor
        ∧ w'.grid = w.grid ∧ w'.tick_ctr = w.tick_ctr ∧ w'.systems = w.systems
        ∧ w'.rng = w.rng ∧ w'.wid = w.wid) := by
  by_cases h1 : a.world = none
  · by_cases h2 : w.grid.is_walkable p = true
    · have hs : w.spawn a p
          = .ok ({ w with agents := w.agents ++ [{ a with world := some w.wid, pos := some p }] },
                 { a with world := some w.wid, pos := some p }) := by
        simp [World.spawn, h1, h2]
      refine ⟨?_, ?_, ?_⟩
      · constructor
        · rintro ⟨e, he⟩
          rw [hs] at he
          cases he
        · rintro (hc | hc)
          · exact absurd h1 hc
          · rw [h2] at hc
            cases hc
      · intro e he
        rw [hs] at he
        cases he
      · intro w' a' hok
        rw [hs] at hok
        cases hok
        refine ⟨rfl, rfl, rfl, rfl, rfl, rfl, rfl, rfl, rfl, rfl, rfl⟩
    · have hs : w.spawn a p = .error "Cannot spawn at non-walkable tile." := by
        simp [World.spawn, h1, h2]
      refine ⟨?_, ?_, ?_⟩
      · constructor
        · intro _
          right
          simp only [Bool.not_eq_true] at h2
          exact h2
        · intro _
          exact ⟨_, hs⟩
      · intro e he
        simp [World.spawnRun, hs]
      · intro w' a' hok
        rw [hs] at hok
        cases hok
  · have hs : w.spawn a p = .error "Agent is already spawned in a world." := by
      simp [World.spawn, h1]
    refine ⟨?_, ?_, ?_⟩
    · constructor
      · intro _
        exact Or.inl h1
      · intro _
        exact ⟨_, hs⟩
    · intro e he
      simp [World.spawnRun, hs]
    · intro w' a' hok
      rw [hs] at hok
      cases hok

/-- C8 witness world: an empty world over an open grid with a wall at
(0,0). -/
def w8ex : World :=
  ⟨(Grid.new 5 5 Floor).setTile (0, 0) Wall, .BLOCK, [], 4, none, 0, 0, []⟩

theorem spawn_validation_witness :
    w8ex.spawnRun (Agent.new 11 sensor2M) (0, 0) = (w8ex, Agent.new 11 sensor2M) :=
  (spawn_validation w8ex (Agent.new 11 sensor2M) (0, 0)).2.1
    "Cannot spawn at non-walkable tile." rfl

/-- C9 concrete world: agent 1 at (0,0) moving east onto agent 2's cell
(1,0); agent 2 has no queued action (it waits). -/
def w9ex : World :=
  ⟨openGrid5, .BLOCK, [], 0, none, 0, 0,
   [⟨1, some 0, some (0, 0), some (.move .E), sensor2M, []⟩,
    ⟨2, some 0, some (1, 0), none, sensor2M, []⟩]⟩

/-- C9.  `spawn` never consults the roster: any unattached agent can be
spawned onto any walkable cell, occupied or not.  Collision detection only
considers desired moves, so moving onto a waiting agent's cell yields a
"moved" event and a shared cell, and spawning onto that doubly-occupied
cell still succeeds. -/
theorem spawn_overlap_reachable :
    (∀ (w : World) (a : Agent) (p : Pos), a.world = none →
       w.grid.is_walkable p = true →
       ∃ w' a', w.spawn a p = .ok (w', a') ∧ a'.pos = some p
         ∧ w'.agents = w.agents ++ [a'])
    ∧ ((w9ex.tick).2.events
         = [⟨"moved", .agentTo 1 (1, 0)⟩, ⟨"waited", .agent 2⟩]
       ∧ dictGet (w9ex.tick).2.state.positions 1 = some (1, 0)
       ∧ dictGet (w9ex.tick).2.state.positions 2 = some (1, 0)
       ∧ exceptOk ((w9ex.tick).1.spawn (Agent.new 5 sensor2M) (1, 0)) = true) := by
  constructor
  · intro w a p h1 h2
    refine ⟨{ w with agents := w.agents ++ [{ a with world := some w.wid, pos := some p }] },
      { a with world := some w.wid, pos := some p }, ?_, rfl, rfl⟩
    simp [World.spawn, h1, h2]
  · refine ⟨by decide, by decide, by decide, by decide⟩

theorem spawn_overlap_reachable_witness :
    exceptOk (w9ex.spawn (Agent.new 6 sensor2M) (1, 0)) = true := by
  obtain ⟨w', a', hok, -, -⟩ :=
    spawn_overlap_reachable.1 w9ex (Agent.new 6 sensor2M) (1, 0) rfl (by decide)
  rw [hok]
  rfl

/-- C10.  `reset` zeroes the tick counter and empties the roster (systems
and grid are untouched), but an agent spawned earlier keeps its world
reference, so spawning it again — on any world, at any cell — always fails
with the already-attached error. -/
theorem reset_respawn_always_fails (w : World) (sd : Option Nat) (e : Nat) :
    ((w.reset sd e).tick_ctr = 0 ∧ (w.reset sd e).agents = []
      ∧ (w.reset sd e).systems = w.systems ∧ (w.reset sd e).grid = w.grid)
    ∧ (∀ (w0 : World) (a : Agent) (p : Pos) (w' : World) (a' : Agent),
        w0.spawn a p = .ok (w', a') →
        ∀ (w2 : World) (p2 : Pos), ∃ err, w2.spawn a' p2 = .error err) := by
  refine ⟨⟨rfl, rfl, rfl, rfl⟩, ?_⟩
  intro w0 a p w' a' hok w2 p2
  have hworld : a'.world = some w0.wid := by
    by_cases h1 : a.world = none
    · by_cases h2 : w0.grid.is_walkable p = true
      · have hs : w0.spawn a p
            = .ok ({ w0 with agents := w0.agents ++ [{ a with world := some w0.wid, pos := some p }] },
                   { a with world := some w0.wid, pos := some p }) := by
          simp [World.spawn, h1, h2]
        rw [hs] at hok
        cases hok
        rfl
      · have hs : w0.spawn a p = .error "Cannot spawn at non-walkable tile." := by
          simp [World.spawn, h1, h2]
        rw [hs] at hok
        cases hok
    · have hs : w0.spawn a p = .error "Agent is already spawned in a world." := by
        simp [World.spawn, h1]
      rw [hs] at hok
      cases hok
  refine ⟨"Agent is already spawned in a world.", ?_⟩
  simp [World.spawn, hworld]

/-- C10 witness world: a fresh world over the open grid. -/
def w10ex : World := ⟨openGrid5, .BLOCK, [], 0, none, 0, 0, []⟩

theorem reset_respawn_always_fails_witness :
    exceptOk (w10ex.spawn (⟨9, some 0, some (0, 0), none, sensor2M, []⟩ : Agent) (1, 1)) = false := by
  obtain ⟨err, herr⟩ := (reset_respawn_always_fails w10ex (some 3) 0).2 w10ex
    (Agent.new 9 sensor2M) (0, 0)
    ⟨openGrid5, .BLOCK, [], 0, none, 0, 0, [⟨9, some 0, some (0, 0), none, sensor2M, []⟩]⟩
    ⟨9, some 0, some (0, 0), none, sensor2M, []⟩ rfl w10ex (1, 1)
  rw [herr]
  rfl

end UW
